import Mathlib

/-!
Verification of the `pre` compile-time contract-annotation processor.

The development shallowly embeds the Rust sources of the repository:

* `src/src/precondition/kind.rs` — the precondition kinds,
* `src/proc-macro/src/const_generics_impl.rs` — the marker-type encoder
  (`PreconditionList::to_tokens`, `Precondition::to_tokens`, `render_pre`,
  `render_assert_precondition`),
* `src/proc-macro/src/helpers.rs` — crate-name resolution (`CRATE_NAME`),
  attribute matching (`is_attr`) and `visit_matching_attrs_parsed`,
* `src/proc-macro/src/pre_attr.rs` — `PreAttrVisitor::render_function`,
* `src/proc-macro/src/call_handling.rs` — `process_call`, `render_call`,
  `check_reasons`, `unfinished_reason`,
* `src/proc-macro/src/assert_pre.rs` — `AssertPreVisitor::visit_expr_call_mut`,
  `has_unfinished_reason`, `process_attribute`,
* `src/proc-macro/src/pre_defs_for.rs` — `DefinitionsForModule::render_inner`
  and `render_function`.

Token streams are modelled as strings or as structured values whose fields
record exactly the tokens that the corresponding Rust code appends; spans are
modelled as pairs of natural numbers; the diagnostics channel of
`proc_macro_error` (`emit_error!` / `emit_warning!`) is modelled as a list of
structured diagnostics returned next to the rewritten output, and an expansion
counts as successful when that list holds no error-severity entry.

Parts of the repository that the claims depend on but that are not present
under `src/` (the `precondition` module other than `kind.rs`, `call.rs`,
`call_handling/def_statement.rs` and the crate root) are modelled from the
spec; each such definition carries a doc comment starting with
`Modelled from the spec:`.
-/

namespace Pre

/-- A source position, modelled as a pair of offsets.  Only carried along for
diagnostics; no theorem depends on the numeric contents. -/
abbrev Span := Nat × Nat

/-- Joining two spans, as `proc_macro2::Span::join` is used by the sources:
the smallest range covering both. -/
def joinSpan (a b : Span) : Span := (min a.1 b.1, max a.2 b.2)

/-! ## Precondition kinds (`src/src/precondition/kind.rs`) -/

/-- The different kinds of preconditions, from `precondition/kind.rs`:
`ValidPtr` keeps the identifier of the pointer, `Custom` keeps the literal
string spelling the condition.  Keywords, parentheses and spans of the
surface syntax are not semantically relevant and are dropped. -/
inductive PreconditionKind where
  | validPtr (ident : String)
  | custom (condition : String)
deriving DecidableEq

/-- Modelled from the spec: the `Precondition` entity of the missing
`precondition` module ("a precondition's kind, its optional justification,
its source position").  The justification and the spans live in the
per-statement wrappers below, exactly where `call_handling.rs` keeps them,
so the core entity is its kind. -/
structure Precondition where
  kind : PreconditionKind
deriving DecidableEq

/-! ## The total order on preconditions

Modelled from the spec (§3): "kinds have a total order (used by the
Canonicalizer) defined first by variant tag, then lexicographically by
payload".  Strings are compared lexicographically by character code. -/

/-- Modelled from the spec: the sort key of a precondition — variant tag
first (`ValidPtr` before `Custom`, following the declaration order of
`precondition/kind.rs`), then the payload compared lexicographically by
character code. -/
def preconditionKey (p : Precondition) : Nat ×ₗ List Char :=
  toLex (match p.kind with
  | .validPtr ident => (0, ident.data)
  | .custom condition => (1, condition.data))

/-- Modelled from the spec: the total order of §3 on preconditions, lifted
from the sort key (the key is injective, so the lift is a linear order). -/
instance : LinearOrder Precondition :=
  LinearOrder.lift' preconditionKey (fun a b h => by
    obtain ⟨ka⟩ := a
    obtain ⟨kb⟩ := b
    cases ka <;> cases kb <;> simp [preconditionKey] at h <;>
      (rename_i s1 s2
       have hs : s1 = s2 := by
         cases s1
         cases s2
         exact congrArg String.mk h
       rw [hs]))

/-- Modelled from the spec: one insertion step of the sorted iteration used
by `PreconditionList::sorted_iter`.  The element is inserted at its place in
the strictly ascending list; an element already present is kept once
("one instantiation per distinct kind+payload", §4.3). -/
def insertSorted (p : Precondition) : List Precondition → List Precondition
  | [] => [p]
  | q :: rest =>
    if p < q then p :: q :: rest
    else if q < p then q :: insertSorted p rest
    else q :: rest

/-- Modelled from the spec: `PreconditionList::sorted_iter` — iterate the
stored preconditions in the canonical sorted order, one occurrence per
distinct precondition. -/
def sortedIter (l : List Precondition) : List Precondition :=
  l.foldr insertSorted []

/-! ## The marker-type encoder (`const_generics_impl.rs`) -/

/-- A string literal rendered back to tokens, as `LitStr` prints. -/
def quoteLit (s : String) : String := "\"" ++ s ++ "\""

/-- The source `impl ToTokens for Precondition` (`const_generics_impl.rs`, lines 34-51):
a `Custom` condition renders to `::<crate>::CustomConditionHolds::<"text">`,
a `ValidPtr` condition renders to `::<crate>::ValidPtrConditionHolds::<"ident">`.
The crate name is the resolved name of the main crate. -/
def preconditionToTokens (crate : String) (p : Precondition) : String :=
  match p.kind with
  | .custom s => "::" ++ crate ++ "::CustomConditionHolds::<" ++ quoteLit s ++ ">"
  | .validPtr ident => "::" ++ crate ++ "::ValidPtrConditionHolds::<" ++ quoteLit ident ++ ">"

/-- The source `impl ToTokens for PreconditionList` (`const_generics_impl.rs`, lines
24-32): append every precondition of the sorted iteration followed by a
comma. -/
def preconditionListToTokens (crate : String) (l : List Precondition) : String :=
  String.join ((sortedIter l).map (fun p => preconditionToTokens crate p ++ ","))

/-! ## Diagnostics

The `proc_macro_error` channel (`emit_error!` / `emit_warning!` /
`abort_call_site!`) is modelled as a list of structured diagnostics carried
next to the rewritten output.  An expansion is successful when no
error-severity diagnostic was emitted; `proc_macro_error` turns any emitted
error into a failing build at the end of the macro invocation. -/

/-- The severity of a diagnostic. -/
inductive Severity where
  | error
  | warning
deriving DecidableEq

/-- The recognized diagnostic categories of the processor. -/
inductive DiagKind where
  | missingReason
  | placeholderReason
  | duplicateAttr
  | duplicateDef
  | malformedAttr
deriving DecidableEq

/-- One structured diagnostic: severity, primary message and span, and an
optional help note with its own optional span. -/
structure Diag where
  kind : DiagKind
  severity : Severity
  span : Span
  message : String
  helpSpan : Option Span
  helpText : Option String
deriving DecidableEq

/-- Whether some emitted diagnostic is an error. -/
def hasErrorDiag (diags : List Diag) : Bool :=
  diags.any (fun d => d.severity == Severity.error)

/-- An expansion is successful exactly when no error was emitted;
`proc_macro_error` aborts the expansion at the end of the invocation when
any `emit_error!` fired. -/
def successfulExpansion (diags : List Diag) : Bool := !hasErrorDiag diags

/-! ## Attributes and `helpers.rs` -/

/-- An attribute on a syntax node.  `path` is the attribute path segments,
`raw` the surface text of the whole attribute (used when the carrying node is
printed back), `tokens` the token content handed to the external parser
(modelled as an arbitrary type consumed by a parser oracle), `span` its
source position. -/
structure Attribute (α : Type) where
  path : List String
  raw : String
  tokens : α
  span : Span
deriving DecidableEq

/-- The source `is_attr` (`helpers.rs`, lines 36-48): an attribute matches `attr_to_check`
if its path is exactly that identifier, or a two-segment path whose first
segment is the resolved main-crate name and whose second segment is
`attr_to_check`. -/
def isAttr (attrToCheck : String) (crateName : String) (path : List String) : Bool :=
  match path with
  | [single] => single == attrToCheck
  | [first, second] => first == crateName && second == attrToCheck
  | _ => false

/-- The diagnostic emitted when an attribute's token content fails to parse
(`emit_error!(err)` in `visit_matching_attrs_parsed`); the message text comes
from the external parser and is modelled by a fixed placeholder. -/
def malformedDiag (s : Span) : Diag :=
  { kind := DiagKind.malformedAttr, severity := Severity.error, span := s,
    message := "the attribute content failed to parse",
    helpSpan := none, helpText := none }

/-- The result of `visit_matching_attrs_parsed`: the attributes that stayed on
the node, the parsed matching attributes in visit order with their spans, the
diagnostics emitted for unparseable matching attributes, and the joined span
of all matching attributes. -/
structure VisitedAttrs (α β : Type) where
  kept : List (Attribute α)
  visited : List (β × Span)
  diags : List Diag
  spanOfAll : Option Span
deriving DecidableEq

/-- The loop of `visit_matching_attrs_parsed` (`helpers.rs`, lines 53-89),
with the running joined span as accumulator: a matching attribute is removed
from the node whether or not its content parses; parsed contents are visited
in order; a parse failure emits an error and moves on to the next
attribute. -/
def visitMatchingAttrsParsedGo (parse : α → Option β) (filter : Attribute α → Bool)
    (spanAcc : Option Span) : List (Attribute α) → VisitedAttrs α β
  | [] => ⟨[], [], [], spanAcc⟩
  | attr :: rest =>
    if filter attr then
      let span := attr.span
      let newAcc := some (match spanAcc with
        | some old => joinSpan old span
        | none => span)
      match parse attr.tokens with
      | some parsed =>
        let r := visitMatchingAttrsParsedGo parse filter newAcc rest
        ⟨r.kept, (parsed, span) :: r.visited, r.diags, r.spanOfAll⟩
      | none =>
        let r := visitMatchingAttrsParsedGo parse filter newAcc rest
        ⟨r.kept, r.visited, malformedDiag span :: r.diags, r.spanOfAll⟩
    else
      let r := visitMatchingAttrsParsedGo parse filter spanAcc rest
      ⟨attr :: r.kept, r.visited, r.diags, r.spanOfAll⟩

/-- The source `visit_matching_attrs_parsed` (`helpers.rs`, lines 53-89). -/
def visitMatchingAttrsParsed (parse : α → Option β) (filter : Attribute α → Bool)
    (attributes : List (Attribute α)) : VisitedAttrs α β :=
  visitMatchingAttrsParsedGo parse filter none attributes

/-! ## Crate-name resolution (`helpers.rs` lines 18-33,
`const_generics_impl.rs` lines 19-22) -/

/-- The hint reason of `helpers.rs` (`HINT_REASON`, line 16). -/
def helpersHintReason : String := "<specify the reason why you can assure this here>"

/-- The message of the fatal abort when the main crate cannot be resolved. -/
def crateErrMsg : String := "crate `pre` must be imported"

/-- The body of the `CRATE_NAME` lazy static (`helpers.rs`, lines 18-33).
The two environment inputs — the result of `proc_macro_crate::crate_name("pre")`
and the `CARGO_PKG_NAME` variable — are passed explicitly; `abort_call_site!`
is modelled as `Except.error`, which carries no partial output. -/
def resolveCrateName (crateNameResult : Option String) (cargoPkgName : Option String) :
    Except String String :=
  match crateNameResult with
  | some name => Except.ok name
  | none =>
    match cargoPkgName with
    | some val => if val = "pre" then Except.ok "pre" else Except.error crateErrMsg
    | none => Except.error crateErrMsg

/-- One access to the `lazy_static` cell holding `CRATE_NAME`: if the cache is
filled, its value is returned unchanged (and unconditionally — the resolver
inputs are not consulted again); otherwise the name is resolved once and
stored.  The returned pair is the value together with the cache afterwards. -/
def lazyCrateName (cache : Option String) (crateNameResult cargoPkgName : Option String) :
    Except String (String × Option String) :=
  match cache with
  | some v => Except.ok (v, some v)
  | none =>
    match resolveCrateName crateNameResult cargoPkgName with
    | Except.ok v => Except.ok (v, some v)
    | Except.error e => Except.error e

/-- The source `get_crate_name` (`const_generics_impl.rs`, lines 19-22): `.expect(...)`
aborts the expansion when the crate name cannot be resolved. -/
def getCrateName (crateNameResult : Option String) : Except String String :=
  match crateNameResult with
  | some name => Except.ok name
  | none => Except.error crateErrMsg

/-! ## The `pre` attribute on functions (`pre_attr.rs`, `const_generics_impl.rs`) -/

/-- A parsed `pre` attribute (`pre_attr.rs`, lines 24-39): either empty — a
pure trigger for processing contained attributes — or one precondition. -/
inductive PreAttr where
  | empty
  | precondition (p : Precondition)
deriving DecidableEq

/-- The precondition of a parsed `pre` attribute, when it carries one. -/
def preconditionOfPreAttr : PreAttr → Option Precondition
  | PreAttr.empty => none
  | PreAttr.precondition p => some p

/-- A function item: its attributes, the signature tokens before the
parameter list, the rendered parameters, and the remaining tokens (return
type and body). -/
structure ItemFn (α : Type) where
  attrs : List (Attribute α)
  signatureTokens : String
  inputs : List String
  bodyTokens : String
deriving DecidableEq

/-- Printing a function item back to tokens (`quote! { #function }`). -/
def tokensOfFn (f : ItemFn α) : String :=
  String.join (f.attrs.map (fun a => a.raw)) ++ f.signatureTokens ++ "(" ++
    String.intercalate "," f.inputs ++ ")" ++ f.bodyTokens

/-- The extra parameter appended by `render_pre`
(`const_generics_impl.rs`, lines 58-60). -/
def phantomParam (crate : String) (preconditions : List Precondition) : String :=
  "_: ::core::marker::PhantomData<(" ++ preconditionListToTokens crate preconditions ++ ")>"

/-- The source `render_pre` (`const_generics_impl.rs`, lines 54-65): push the marker
parameter onto the function's parameter list and print the function. -/
def renderPre (crate : String) (preconditions : List Precondition) (function : ItemFn α) :
    String :=
  tokensOfFn { function with inputs := function.inputs ++ [phantomParam crate preconditions] }

/-- The precondition list collected by `PreAttrVisitor::render_function`
(`pre_attr.rs`, lines 56-76): the precondition of the original attribute, if
any, followed by the preconditions of the removed matching `pre` attributes
in visit order (empty `pre` attributes contribute nothing). -/
def collectedPreconditions (parse : α → Option PreAttr) (crateName : String)
    (firstAttr : Option PreAttr) (function : ItemFn α) : List Precondition :=
  (match firstAttr with
   | some (PreAttr.precondition p) => [p]
   | _ => []) ++
  ((visitMatchingAttrsParsed parse (fun a => isAttr "pre" crateName a.path)
      function.attrs).visited.filterMap (fun v => preconditionOfPreAttr v.1))

/-- The source `PreAttrVisitor::render_function` (`pre_attr.rs`, lines 56-88): remove
and collect the `pre` attributes, then either print the function unchanged
(empty collection) or hand it to `render_pre`. -/
def renderFunction (parse : α → Option PreAttr) (crateName : String)
    (firstAttr : Option PreAttr) (function : ItemFn α) : String :=
  let preconditions := collectedPreconditions parse crateName firstAttr function
  let r := visitMatchingAttrsParsed parse (fun a => isAttr "pre" crateName a.path)
    function.attrs
  let stripped := { function with attrs := r.kept }
  if preconditions.isEmpty then tokensOfFn stripped
  else renderPre crateName preconditions stripped

/-! ## Call-site handling (`call_handling.rs`) -/

/-- The hint reason of `call_handling.rs` (line 129) and `assert_pre.rs`
(line 37), identical in both files. -/
def hintReason : String := "why does this hold?"

/-- ASCII lowercasing of one character, as `make_ascii_lowercase` does. -/
def asciiLowerChar (c : Char) : Char :=
  if 'A' ≤ c ∧ c ≤ 'Z' then Char.ofNat (c.toNat + 32) else c

/-- ASCII lowercasing of a string, as `make_ascii_lowercase` does
(character by character over the string's data). -/
def asciiLower (s : String) : String := String.mk (s.data.map asciiLowerChar)

/-- The source `unfinished_reason` (`call_handling.rs`, lines 241-249): the reason is a
placeholder when its ASCII lowercasing is the hint string, `todo` or `?`. -/
def unfinishedReason (reason : String) : Option String :=
  if asciiLower reason = hintReason ∨ asciiLower reason = "todo" ∨
      asciiLower reason = "?" then some reason
  else none

/-- A statement that a precondition holds (`call_handling.rs`, lines 53-71),
with or without a stated reason.  The spans are the precondition's own span,
the reason's span, and — without a reason — the position where the reason
clause is missing. -/
inductive PreconditionHoldsStatement where
  | withReason (precondition : Precondition) (span : Span) (reason : String) (reasonSpan : Span)
  | withoutReason (precondition : Precondition) (span : Span) (missingReasonSpan : Span)
deriving DecidableEq

/-- The source `impl From<PreconditionHoldsStatement> for Precondition`
(`call_handling.rs`, lines 73-80). -/
def toPrecondition : PreconditionHoldsStatement → Precondition
  | PreconditionHoldsStatement.withReason p _ _ _ => p
  | PreconditionHoldsStatement.withoutReason p _ _ => p

/-- Whether the statement carries a reason. -/
def hasReason : PreconditionHoldsStatement → Bool
  | PreconditionHoldsStatement.withReason _ _ _ _ => true
  | PreconditionHoldsStatement.withoutReason _ _ _ => false

/-- The missing-justification error of `check_reasons` (`call_handling.rs`,
lines 226-230): anchored at the precondition, with a help note at the
position where the reason belongs, holding a ready-to-paste snippet built
from the hint string. -/
def missingReasonDiag (span missingReasonSpan : Span) : Diag :=
  { kind := DiagKind.missingReason, severity := Severity.error, span := span,
    message := "you need to specify a reason why this precondition holds",
    helpSpan := some missingReasonSpan,
    helpText := some ("add `, reason = " ++ quoteLit hintReason ++ "`") }

/-- The placeholder-justification warning of `check_reasons`
(`call_handling.rs`, lines 215-219), anchored at the reason. -/
def placeholderReasonDiag (reasonSpan : Span) : Diag :=
  { kind := DiagKind.placeholderReason, severity := Severity.warning, span := reasonSpan,
    message := "you should specify a more meaningful reason here",
    helpSpan := none,
    helpText := some "specifying a meaningful reason here will help you and others understand why this is ok in the future" }

/-- The diagnostic the loop of `check_reasons` emits for one statement:
an error for a missing reason, a warning for a placeholder reason, nothing
otherwise. -/
def statementDiag : PreconditionHoldsStatement → Option Diag
  | PreconditionHoldsStatement.withReason _ _ reason reasonSpan =>
    match unfinishedReason reason with
    | some _ => some (placeholderReasonDiag reasonSpan)
    | none => none
  | PreconditionHoldsStatement.withoutReason _ span missingReasonSpan =>
    some (missingReasonDiag span missingReasonSpan)

/-- The source `check_reasons` (`call_handling.rs`, lines 210-238): emit the per-
statement diagnostics, then return all stated preconditions — the returned
list is unaffected by the diagnostics. -/
def checkReasons (preconditions : List PreconditionHoldsStatement) :
    List Diag × List Precondition :=
  (preconditions.filterMap statementDiag, preconditions.map toPrecondition)

/-- A call expression (modelled for both `call.rs`, which is not under
`src/`, and `syn::ExprCall`): its attributes, callee path and arguments. -/
structure Call (α : Type) where
  attrs : List (Attribute α)
  callee : List String
  args : List String
deriving DecidableEq

/-- Modelled from the spec: the forwarding statement of
`call_handling/def_statement.rs` (not under `src/`), "naming an alternate
target ... so the call can be redirected to the real ... underlying
function": its span and the path of the definition site. -/
structure DefStatement where
  span : Span
  targetPath : List String
deriving DecidableEq

/-- Modelled from the spec: `DefStatement::update_call` — redirect the callee
to the alternate target named by the statement. -/
def updateCall (defStatement : DefStatement) (call : Call α) : Call α :=
  { call with callee := defStatement.targetPath ++ call.callee }

/-- The extra argument appended by `render_assert_precondition`
(`const_generics_impl.rs`, lines 91-93). -/
def phantomArg (crate : String) (preconditions : List Precondition) : String :=
  "::core::marker::PhantomData::<(" ++ preconditionListToTokens crate preconditions ++ ")>"

/-- Modelled from the spec together with `render_assert_precondition`
(`const_generics_impl.rs`, lines 87-98): the crate-root `render_assert_pre`
appends one marker argument encoding the asserted preconditions to the
call's argument list. -/
def renderAssertPre (crate : String) (preconditions : List Precondition) (call : Call α) :
    Call α :=
  { call with args := call.args ++ [phantomArg crate preconditions] }

/-- A rewritten call expression: either a bare call, or the
`#[allow(dead_code)] if true { live } else { dead }` wrapper synthesized by
`render_call`. -/
inductive Expr (α : Type) where
  | call (c : Call α)
  | iteTrue (liveBranch : Expr α) (deadBranch : Expr α)
deriving DecidableEq

/-- The number of call shapes contained in a rewritten expression. -/
def countCallShapes : Expr α → Nat
  | Expr.call _ => 1
  | Expr.iteTrue a b => countCallShapes a + countCallShapes b

/-- The source `render_call` (`call_handling.rs`, lines 170-205): check the reasons,
rewrite the call (redirected first when a forwarding statement is present),
and — only in that case — wrap the rewritten call and an untouched copy of
the original call in a statically-true conditional. -/
def renderCall (crate : String) (preconditions : List PreconditionHoldsStatement)
    (defStatement : Option DefStatement) (call : Call α) : Expr α × List Diag :=
  let checked := checkReasons preconditions
  match defStatement with
  | some d =>
    (Expr.iteTrue (Expr.call (renderAssertPre crate checked.2 (updateCall d call)))
      (Expr.call call), checked.1)
  | none => (Expr.call (renderAssertPre crate checked.2 call), checked.1)

/-- A parsed `assert_pre` attribute (`call_handling.rs`, lines 32-51): a
forwarding statement or one precondition-holds statement. -/
inductive AssertPreAttr where
  | defStatement (d : DefStatement)
  | precondition (p : PreconditionHoldsStatement)
deriving DecidableEq

/-- The duplicate-forwarding-statement error of `process_call`
(`call_handling.rs`, lines 141-151): anchored at the new statement, with a
help note at the replaced one. -/
def dupDefDiag (newSpan oldSpan : Span) : Diag :=
  { kind := DiagKind.duplicateDef, severity := Severity.error, span := newSpan,
    message := "duplicate `def(...)` statement",
    helpSpan := some oldSpan,
    helpText := some "there can be just one definition site, try removing the wrong one" }

/-- The visitor closure of `process_call` (`call_handling.rs`, lines
139-159) for one parsed attribute: a forwarding statement replaces the
previously seen one — emitting a duplicate error that keeps the newer
statement — and every precondition statement is appended to the collected
list. -/
def collectStep (acc : Option DefStatement × List PreconditionHoldsStatement × List Diag)
    (parsedAttr : AssertPreAttr) :
    Option DefStatement × List PreconditionHoldsStatement × List Diag :=
  match parsedAttr with
  | AssertPreAttr.defStatement d =>
    match acc.1 with
    | some old => (some d, acc.2.1, acc.2.2 ++ [dupDefDiag d.span old.span])
    | none => (some d, acc.2.1, acc.2.2)
  | AssertPreAttr.precondition p => (acc.1, acc.2.1 ++ [p], acc.2.2)

/-- The visitor closure of `process_call`, folded over the parsed attributes
in visit order. -/
def collectAttrArgs (parsedAttrs : List AssertPreAttr) :
    Option DefStatement × List PreconditionHoldsStatement × List Diag :=
  parsedAttrs.foldl collectStep (none, [], [])

/-- The source `process_call` (`call_handling.rs`, lines 132-167): remove and parse the
`assert_pre` attributes, collect the forwarding statement and precondition
statements, and render the call when at least one attribute matched. -/
def processCall (crate : String) (parse : α → Option AssertPreAttr) (call : Call α) :
    Option (Expr α) × List Diag :=
  let r := visitMatchingAttrsParsed parse (fun a => a.path == ["assert_pre"]) call.attrs
  let collected := collectAttrArgs (r.visited.map (fun v => v.1))
  match r.spanOfAll with
  | some _ =>
    let rendered := renderCall crate collected.2.1 collected.1 { call with attrs := r.kept }
    (some rendered.1, r.diags ++ collected.2.2 ++ rendered.2)
  | none => (none, r.diags ++ collected.2.2)

/-! ## The `assert_pre` visitor (`assert_pre.rs`) -/

/-- The `assert_pre.rs` parsed precondition: it carries its kind, its span,
its optional reason with the reason's span, and the position where a missing
reason belongs (`precondition.missing_reason_span()`). -/
structure StatedPrecondition where
  kind : PreconditionKind
  span : Span
  reason : Option String
  reasonSpan : Span
  missingReasonSpan : Span
deriving DecidableEq

/-- The source `has_unfinished_reason` (`assert_pre.rs`, lines 78-90): the same
lowercasing comparison against the same hint set as `unfinished_reason`,
guarded on a reason being present. -/
def hasUnfinishedReason (precondition : StatedPrecondition) : Bool :=
  match precondition.reason with
  | some reason => (unfinishedReason reason).isSome
  | none => false

/-- An `assert_pre` declaration (`assert_pre.rs`, lines 19-24): the
precondition list inside the parentheses. -/
structure AssertPreAttrList where
  preconditions : List StatedPrecondition
deriving DecidableEq

/-- The diagnostic of `process_attribute` (`assert_pre.rs`, lines 94-114)
for one stated precondition: a missing-justification error without a reason,
a placeholder warning for an unfinished reason, nothing otherwise. -/
def statedPreconditionDiag (p : StatedPrecondition) : Option Diag :=
  match p.reason with
  | none => some (missingReasonDiag p.span p.missingReasonSpan)
  | some _ =>
    if hasUnfinishedReason p then some (placeholderReasonDiag p.reasonSpan) else none

/-- The source `render_assert_precondition` (`const_generics_impl.rs`, lines 87-98) as
`process_attribute` invokes it: push the marker argument encoding the stated
preconditions onto the call. -/
def renderAssertPreList (crate : String) (preconditions : List StatedPrecondition)
    (call : Call α) : Call α :=
  { call with
    args := call.args ++ [phantomArg crate (preconditions.map (fun p => ⟨p.kind⟩))] }

/-- The duplicate-attribute error of `AssertPreVisitor::visit_expr_call_mut`
(`assert_pre.rs`, lines 54-59). -/
def dupAttrDiag (span : Span) : Diag :=
  { kind := DiagKind.duplicateAttr, severity := Severity.error, span := span,
    message := "duplicate assert_pre attribute found",
    helpSpan := none,
    helpText := some "combine the list of conditions into one attribute" }

/-- The source `process_attribute` (`assert_pre.rs`, lines 93-118): emit the reason
diagnostics and swap in the rendered call — rendering happens regardless of
the diagnostics. -/
def processAttribute (crate : String) (attr : AssertPreAttrList) (call : Call α) :
    Call α × List Diag :=
  (renderAssertPreList crate attr.preconditions call,
   attr.preconditions.filterMap statedPreconditionDiag)

/-- The `while` loop of `AssertPreVisitor::visit_expr_call_mut`
(`assert_pre.rs`, lines 47-71), with the `attr_found` flag as accumulator.
Every `assert_pre` attribute is removed; once the flag is set, each further
occurrence only emits a duplicate error and its contents are discarded;
before that, the first occurrence is parsed (setting the flag either way)
and its parsed content is kept for processing. -/
def assertPreLoop (parse : α → Option AssertPreAttrList) (attrFound : Bool) :
    List (Attribute α) → List (Attribute α) × List AssertPreAttrList × List Diag
  | [] => ([], [], [])
  | attr :: rest =>
    if attr.path == ["assert_pre"] then
      if attrFound then
        let r := assertPreLoop parse true rest
        (r.1, r.2.1, dupAttrDiag attr.span :: r.2.2)
      else
        match parse attr.tokens with
        | some parsed =>
          let r := assertPreLoop parse true rest
          (r.1, parsed :: r.2.1, r.2.2)
        | none =>
          let r := assertPreLoop parse true rest
          (r.1, r.2.1, malformedDiag attr.span :: r.2.2)
    else
      let r := assertPreLoop parse attrFound rest
      (attr :: r.1, r.2.1, r.2.2)

/-- The source `AssertPreVisitor::visit_expr_call_mut` (`assert_pre.rs`, lines 46-74)
on one call node: run the loop, then process the parsed attribute — at most
one is ever collected — against the call with the attributes removed. -/
def visitExprCall (crate : String) (parse : α → Option AssertPreAttrList) (call : Call α) :
    Call α × List Diag :=
  let r := assertPreLoop parse false call.attrs
  let stripped := { call with attrs := r.1 }
  match r.2.1 with
  | [] => (stripped, r.2.2)
  | attr :: _ =>
    let p := processAttribute crate attr stripped
    (p.1, p.2 ++ r.2.2)

/-- Dropping every matching `assert_pre` attribute after the first, mirroring
what the loop's discarding behaviour is claimed to amount to. -/
def dropLaterMatches (attrFound : Bool) : List (Attribute α) → List (Attribute α)
  | [] => []
  | attr :: rest =>
    if attr.path == ["assert_pre"] then
      if attrFound then dropLaterMatches true rest
      else attr :: dropLaterMatches true rest
    else attr :: dropLaterMatches attrFound rest

/-- The precondition statement of a parsed `assert_pre` attribute, when it is
one. -/
def precondOfAttr : AssertPreAttr → Option PreconditionHoldsStatement
  | AssertPreAttr.precondition p => some p
  | AssertPreAttr.defStatement _ => none

/-- Whether a parsed `assert_pre` attribute is a forwarding statement. -/
def isDefStatement : AssertPreAttr → Bool
  | AssertPreAttr.defStatement _ => true
  | AssertPreAttr.precondition _ => false

/-- The number of duplicate-forwarding-statement errors the fold of
`process_call` emits, given whether a forwarding statement was already
seen. -/
def countDupsFrom (found : Bool) : List AssertPreAttr → Nat
  | [] => 0
  | AssertPreAttr.defStatement _ :: rest => (if found then 1 else 0) + countDupsFrom true rest
  | AssertPreAttr.precondition _ :: rest => countDupsFrom found rest

/-! ## The mirror generator (`pre_defs_for.rs`) -/

/-- The visibility of a module or function, as `syn::Visibility`:
public (`pub`), restricted (`pub(crate)`, `pub(super)`, ...; the field holds
its surface tokens) or inherited (no tokens). -/
inductive Visibility where
  | publicVis
  | restricted (tokens : String)
  | inherited
deriving DecidableEq

/-- The tokens of a visibility, as it prints back. -/
def visTokens : Visibility → String
  | Visibility.publicVis => "pub"
  | Visibility.restricted tokens => tokens
  | Visibility.inherited => ""

/-- A function signature inside a `pre_defs_for` module
(`syn::ForeignItemFn`): attributes, rendered signature tokens, name and the
argument pattern names in declaration order. -/
structure ForeignItemFn where
  attrs : List String
  sig : String
  ident : String
  argNames : List String
deriving DecidableEq

mutual
/-- A parsed `pre_defs_for` module (`pre_defs_for.rs`, lines 48-65):
attributes, visibility, name, imports, function signatures and nested
modules. -/
inductive DefsModule where
  | mk (attrs : List String) (visibility : Visibility) (ident : String)
      (imports : List String) (functions : List ForeignItemFn) (modules : DefsModuleList)
inductive DefsModuleList where
  | nil
  | cons (m : DefsModule) (ms : DefsModuleList)
end

/-- The attributes of a parsed module. -/
def defsAttrs : DefsModule → List String
  | DefsModule.mk attrs _ _ _ _ _ => attrs

/-- The visibility of a parsed module. -/
def defsVisibility : DefsModule → Visibility
  | DefsModule.mk _ visibility _ _ _ _ => visibility

/-- The name of a parsed module. -/
def defsIdent : DefsModule → String
  | DefsModule.mk _ _ ident _ _ _ => ident

/-- The imports of a parsed module. -/
def defsImports : DefsModule → List String
  | DefsModule.mk _ _ _ imports _ _ => imports

/-- The function signatures of a parsed module. -/
def defsFunctions : DefsModule → List ForeignItemFn
  | DefsModule.mk _ _ _ _ functions _ => functions

/-- The nested modules of a parsed module. -/
def defsModules : DefsModule → DefsModuleList
  | DefsModule.mk _ _ _ _ _ modules => modules

mutual
/-- The nesting depth of a parsed module tree. -/
def defsDepth : DefsModule → Nat
  | DefsModule.mk _ _ _ _ _ modules => 1 + defsListDepth modules
def defsListDepth : DefsModuleList → Nat
  | DefsModuleList.nil => 0
  | DefsModuleList.cons m ms => max (defsDepth m) (defsListDepth ms)
end

/-- The number of modules in a parsed module list. -/
def defsListLength : DefsModuleList → Nat
  | DefsModuleList.nil => 0
  | DefsModuleList.cons _ ms => 1 + defsListLength ms

/-- A forwarding function synthesized by the mirror generator's
`render_function` (`pre_defs_for.rs`, lines 236-274): the original
attributes, the injected `#[inline(always)]`, the visibility tokens it was
handed, the original signature, and a body that is a single call of the
path-qualified external function with the original argument names in
order. -/
structure OutFunction where
  attrs : List String
  inlineAlways : Bool
  visibility : String
  sig : String
  bodyPath : List String
  bodyArgs : List String
deriving DecidableEq

mutual
/-- A synthesized module: attributes, rendered visibility tokens, name, the
two automatically injected wildcard imports (of the target path and of the
main crate's interface), the copied imports, the forwarders and the nested
synthesized modules. -/
inductive OutModule where
  | mk (attrs : List String) (visibility : String) (ident : String)
      (injectedImports : List (List String)) (imports : List String)
      (functions : List OutFunction) (modules : OutModuleList)
inductive OutModuleList where
  | nil
  | cons (m : OutModule) (ms : OutModuleList)
end

/-- The rendered visibility tokens of a synthesized module. -/
def outVisibility : OutModule → String
  | OutModule.mk _ visibility _ _ _ _ _ => visibility

/-- The name of a synthesized module. -/
def outIdent : OutModule → String
  | OutModule.mk _ _ ident _ _ _ _ => ident

/-- The copied imports of a synthesized module. -/
def outImports : OutModule → List String
  | OutModule.mk _ _ _ _ imports _ _ => imports

/-- The injected wildcard imports of a synthesized module. -/
def outInjectedImports : OutModule → List (List String)
  | OutModule.mk _ _ _ injectedImports _ _ _ => injectedImports

/-- The forwarders of a synthesized module. -/
def outFunctions : OutModule → List OutFunction
  | OutModule.mk _ _ _ _ _ functions _ => functions

/-- The nested modules of a synthesized module. -/
def outModules : OutModule → OutModuleList
  | OutModule.mk _ _ _ _ _ _ modules => modules

mutual
/-- The nesting depth of a synthesized module tree. -/
def outDepth : OutModule → Nat
  | OutModule.mk _ _ _ _ _ _ modules => 1 + outListDepth modules
def outListDepth : OutModuleList → Nat
  | OutModuleList.nil => 0
  | OutModuleList.cons m ms => max (outDepth m) (outListDepth ms)
end

/-- The number of modules in a synthesized module list. -/
def outListLength : OutModuleList → Nat
  | OutModuleList.nil => 0
  | OutModuleList.cons _ ms => 1 + outListLength ms

/-- The source `render_function` (`pre_defs_for.rs`, lines 236-274): the forwarder keeps
the original attributes and signature, gains `#[inline(always)]` and the
handed visibility, and its body is the single call `path::ident(args...)`. -/
def renderDefsFunction (path : List String) (function : ForeignItemFn)
    (visibility : String) : OutFunction :=
  { attrs := function.attrs
    inlineAlways := true
    visibility := visibility
    sig := function.sig
    bodyPath := path ++ [function.ident]
    bodyArgs := function.argNames }

/-- The visibility the outermost call of `render_inner` passes to all
recursive calls (`pre_defs_for.rs`, lines 167-175): `pub` stays `pub`, any
other visibility becomes `pub(crate)`. -/
def normVis : Visibility → String
  | Visibility.publicVis => "pub"
  | _ => "pub(crate)"

mutual
/-- The source `DefinitionsForModule::render_inner` (`pre_defs_for.rs`, lines 138-211)
and its module recursion: the outermost call (`visibility = none`) keeps the
module's own visibility and computes the child visibility; recursive calls
(`visibility = some v`) extend the path by the module name and use the
passed visibility everywhere.  Every synthesized module gets the two
injected wildcard imports, the copied imports, the rendered forwarders and
the recursively rendered submodules. -/
def renderInner (path : List String) (visibility : Option String) (crateName : String) :
    DefsModule → OutModule
  | DefsModule.mk attrs vis ident imports functions modules =>
    let updatedPath := match visibility with
      | some _ => path ++ [ident]
      | none => path
    let renderedVis := match visibility with
      | some v => v
      | none => visTokens vis
    let childVis := match visibility with
      | some v => v
      | none => normVis vis
    OutModule.mk attrs renderedVis ident
      [updatedPath ++ ["*"], [crateName, "pre"]]
      imports
      (functions.map (fun f => renderDefsFunction updatedPath f childVis))
      (renderModules updatedPath childVis crateName modules)
def renderModules (path : List String) (visibility : String) (crateName : String) :
    DefsModuleList → OutModuleList
  | DefsModuleList.nil => OutModuleList.nil
  | DefsModuleList.cons m ms =>
    OutModuleList.cons (renderInner path (some visibility) crateName m)
      (renderModules path visibility crateName ms)
end

/-- The source `DefinitionsForModule::render` (`pre_defs_for.rs`, lines 126-133): the
outermost call with the attribute's target path and no passed visibility. -/
def renderDefs (targetPath : List String) (crateName : String) (m : DefsModule) : OutModule :=
  renderInner targetPath none crateName m

mutual
/-- Visibility propagation through a synthesized tree: every forwarder of
the module has the given visibility tokens, and every nested module both
renders with those tokens and propagates them further. -/
def visPropagated (visibility : String) : OutModule → Prop
  | OutModule.mk _ _ _ _ _ functions modules =>
    (∀ f ∈ functions, f.visibility = visibility) ∧ visPropagatedList visibility modules
def visPropagatedList (visibility : String) : OutModuleList → Prop
  | OutModuleList.nil => True
  | OutModuleList.cons m ms =>
    outVisibility m = visibility ∧ visPropagated visibility m ∧
      visPropagatedList visibility ms
end

/-! ## Concrete inputs used by witnesses and counterexamples -/

/-- A parser oracle for `pre` attributes whose content is the empty token
stream of `#[pre()]`: it parses to the empty `pre` attribute. -/
def parseEmptyPre : Unit → Option PreAttr := fun _ => some PreAttr.empty

/-- The attribute `#[pre()]`. -/
def attrEmptyPre : Attribute Unit :=
  { path := ["pre"], raw := "#[pre()]", tokens := (), span := (0, 8) }

/-- A function carrying only the empty attribute `#[pre()]`. -/
def fnEmptyPre : ItemFn Unit :=
  { attrs := [attrEmptyPre], signatureTokens := "fn foo", inputs := [], bodyTokens := ";" }

/-- A function carrying no attributes at all. -/
def fnPlain : ItemFn Unit :=
  { attrs := [], signatureTokens := "fn bar", inputs := ["x: u8"], bodyTokens := ";" }

/-- A parser oracle whose token type is the parsed attribute itself. -/
def parseAssertPre : AssertPreAttr → Option AssertPreAttr := some

/-- A first stated precondition with a meaningful reason. -/
def stmtOne : PreconditionHoldsStatement :=
  PreconditionHoldsStatement.withReason ⟨PreconditionKind.custom "a > 0"⟩ (10, 20)
    "checked by the caller" (15, 20)

/-- A second, different stated precondition with a meaningful reason. -/
def stmtTwo : PreconditionHoldsStatement :=
  PreconditionHoldsStatement.withReason ⟨PreconditionKind.custom "b > 0"⟩ (30, 40)
    "checked by the caller" (35, 40)

/-- A call carrying two separate `assert_pre` annotation blocks, each with
one precondition statement. -/
def callTwoBlocks : Call AssertPreAttr :=
  { attrs :=
      [{ path := ["assert_pre"], raw := "#[assert_pre(..)]",
         tokens := AssertPreAttr.precondition stmtOne, span := (10, 20) },
       { path := ["assert_pre"], raw := "#[assert_pre(..)]",
         tokens := AssertPreAttr.precondition stmtTwo, span := (30, 40) }],
    callee := ["foo"], args := ["x"] }

/-- The call `process_call` produces for `callTwoBlocks`: attributes removed
and one marker argument encoding both blocks' preconditions. -/
def callTwoBlocksExpected : Call AssertPreAttr :=
  { attrs := []
    callee := ["foo"]
    args := ["x",
      "::core::marker::PhantomData::<(::pre::CustomConditionHolds::<\"a > 0\">,::pre::CustomConditionHolds::<\"b > 0\">,)>"] }

/-! ## Properties of the canonical sorted iteration -/

/-- Membership in an insertion step: exactly the inserted element and the
previous elements. -/
theorem mem_insertSorted (x p : Precondition) :
    ∀ l, x ∈ insertSorted p l ↔ x = p ∨ x ∈ l
  | [] => by simp [insertSorted]
  | q :: rest => by
    by_cases h1 : p < q
    · simp [insertSorted, h1, List.mem_cons]
    · by_cases h2 : q < p
      · simp only [insertSorted, if_neg h1, if_pos h2, List.mem_cons,
          mem_insertSorted x p rest]
        tauto
      · have hq : q = p := le_antisymm (not_lt.mp h1) (not_lt.mp h2)
        subst hq
        rw [insertSorted, if_neg h1, if_neg h2]
        simp only [List.mem_cons]
        tauto

/-- An insertion step preserves strict sortedness. -/
theorem sorted_insertSorted (p : Precondition) :
    ∀ l, List.Sorted (· < ·) l → List.Sorted (· < ·) (insertSorted p l)
  | [], _ => by simp [insertSorted]
  | q :: rest, h => by
    rw [List.sorted_cons] at h
    obtain ⟨hq, hrest⟩ := h
    by_cases h1 : p < q
    · rw [insertSorted, if_pos h1, List.sorted_cons]
      refine ⟨?_, ?_⟩
      · intro b hb
        rcases List.mem_cons.mp hb with rfl | hb
        · exact h1
        · exact lt_trans h1 (hq b hb)
      · rw [List.sorted_cons]
        exact ⟨hq, hrest⟩
    · by_cases h2 : q < p
      · rw [insertSorted, if_neg h1, if_pos h2, List.sorted_cons]
        refine ⟨?_, sorted_insertSorted p rest hrest⟩
        intro b hb
        rcases (mem_insertSorted b p rest).mp hb with rfl | hb
        · exact h2
        · exact hq b hb
      · rw [insertSorted, if_neg h1, if_neg h2, List.sorted_cons]
        exact ⟨hq, hrest⟩

/-- The sorted iteration is strictly sorted. -/
theorem sorted_sortedIter : ∀ l : List Precondition, List.Sorted (· < ·) (sortedIter l)
  | [] => by simp [sortedIter]
  | p :: rest => by
    rw [sortedIter, List.foldr_cons]
    exact sorted_insertSorted p _ (sorted_sortedIter rest)

/-- The sorted iteration ranges over exactly the stored preconditions. -/
theorem mem_sortedIter (x : Precondition) : ∀ l, x ∈ sortedIter l ↔ x ∈ l
  | [] => by simp [sortedIter]
  | p :: rest => by
    rw [sortedIter, List.foldr_cons, mem_insertSorted]
    have hrest := mem_sortedIter x rest
    rw [sortedIter] at hrest
    rw [hrest]
    simp [List.mem_cons]

/-- Two set-equal precondition lists have the same sorted iteration. -/
theorem sortedIter_eq_of_mem_iff {l1 l2 : List Precondition}
    (h : ∀ x, x ∈ l1 ↔ x ∈ l2) : sortedIter l1 = sortedIter l2 := by
  haveI : IsIrrefl Precondition (· < ·) := ⟨lt_irrefl⟩
  haveI : IsAntisymm Precondition (· < ·) :=
    ⟨fun a b hab hba => absurd hba (lt_asymm hab)⟩
  refine List.eq_of_perm_of_sorted ?_ (sorted_sortedIter l1) (sorted_sortedIter l2)
  refine (List.perm_ext_iff_of_nodup (sorted_sortedIter l1).nodup
    (sorted_sortedIter l2).nodup).mpr ?_
  intro a
  rw [mem_sortedIter, mem_sortedIter]
  exact h a

/-- C1: For every precondition list, rendering the canonical fingerprint
encoding is order-independent: any two lists that are set-equal (contain the
same kind+payload preconditions, in any declaration order) render to
textually identical marker-type token output, because the encoder iterates
the list in sorted order. -/
theorem c1_encoding_order_independent (crate : String) (l1 l2 : List Precondition)
    (h12 : ∀ p ∈ l1, p ∈ l2) (h21 : ∀ p ∈ l2, p ∈ l1) :
    preconditionListToTokens crate l1 = preconditionListToTokens crate l2 := by
  unfold preconditionListToTokens
  rw [sortedIter_eq_of_mem_iff (fun x => ⟨fun hx => h12 x hx, fun hx => h21 x hx⟩)]

/-- Witness for C1: two set-equal two-element lists in opposite declaration
order render to the same tokens. -/
theorem c1_encoding_order_independent_witness :
    (∀ p ∈ ([⟨PreconditionKind.custom "a > 0"⟩, ⟨PreconditionKind.validPtr "ptr"⟩] :
        List Precondition),
      p ∈ ([⟨PreconditionKind.validPtr "ptr"⟩, ⟨PreconditionKind.custom "a > 0"⟩] :
        List Precondition)) ∧
    (∀ p ∈ ([⟨PreconditionKind.validPtr "ptr"⟩, ⟨PreconditionKind.custom "a > 0"⟩] :
        List Precondition),
      p ∈ ([⟨PreconditionKind.custom "a > 0"⟩, ⟨PreconditionKind.validPtr "ptr"⟩] :
        List Precondition)) ∧
    preconditionListToTokens "pre"
        [⟨PreconditionKind.custom "a > 0"⟩, ⟨PreconditionKind.validPtr "ptr"⟩] =
      preconditionListToTokens "pre"
        [⟨PreconditionKind.validPtr "ptr"⟩, ⟨PreconditionKind.custom "a > 0"⟩] :=
  ⟨by decide, by decide,
    c1_encoding_order_independent "pre"
      [⟨PreconditionKind.custom "a > 0"⟩, ⟨PreconditionKind.validPtr "ptr"⟩]
      [⟨PreconditionKind.validPtr "ptr"⟩, ⟨PreconditionKind.custom "a > 0"⟩]
      (by decide) (by decide)⟩

/-! ## Properties of the attribute visitor -/

/-- The loop of `visit_matching_attrs_parsed`, characterized for any running
span: the kept attributes are exactly the non-matching ones, the visited
contents are the parseable matching ones in order, and the diagnostics are
one malformed-attribute error per unparseable matching one, in order. -/
theorem visitGo_spec (parse : α → Option β) (filter : Attribute α → Bool) :
    ∀ (attrs : List (Attribute α)) (spanAcc : Option Span),
      (visitMatchingAttrsParsedGo parse filter spanAcc attrs).kept =
          attrs.filter (fun a => !(filter a)) ∧
      (visitMatchingAttrsParsedGo parse filter spanAcc attrs).visited =
          attrs.filterMap (fun a =>
            if filter a then (parse a.tokens).map (fun b => (b, a.span)) else none) ∧
      (visitMatchingAttrsParsedGo parse filter spanAcc attrs).diags =
          attrs.filterMap (fun a =>
            if filter a && (parse a.tokens).isNone then some (malformedDiag a.span)
            else none)
  | [], _ => by simp [visitMatchingAttrsParsedGo]
  | attr :: rest, spanAcc => by
    by_cases hf : filter attr
    · cases hp : parse attr.tokens with
      | some b =>
        have ih := visitGo_spec parse filter rest
          (some (match spanAcc with
            | some old => joinSpan old attr.span
            | none => attr.span))
        simp [visitMatchingAttrsParsedGo, hf, hp, ih.1, ih.2.1, ih.2.2]
      | none =>
        have ih := visitGo_spec parse filter rest
          (some (match spanAcc with
            | some old => joinSpan old attr.span
            | none => attr.span))
        simp [visitMatchingAttrsParsedGo, hf, hp, ih.1, ih.2.1, ih.2.2]
    · have ih := visitGo_spec parse filter rest spanAcc
      simp [visitMatchingAttrsParsedGo, hf, ih.1, ih.2.1, ih.2.2]

/-- C10: Every attribute matching the processor's filter is removed from the
node's attribute list even when its token content fails to parse: on a parse
failure a malformed-annotation error is emitted, the malformed attribute
still does not appear in the rewritten output, and the remaining attributes
on the same node are still processed. -/
theorem c10_matching_attrs_always_removed (parse : α → Option β)
    (filter : Attribute α → Bool) (attrs : List (Attribute α)) :
    (visitMatchingAttrsParsed parse filter attrs).kept =
        attrs.filter (fun a => !(filter a)) ∧
    (visitMatchingAttrsParsed parse filter attrs).visited =
        attrs.filterMap (fun a =>
          if filter a then (parse a.tokens).map (fun b => (b, a.span)) else none) ∧
    (visitMatchingAttrsParsed parse filter attrs).diags =
        attrs.filterMap (fun a =>
          if filter a && (parse a.tokens).isNone then some (malformedDiag a.span)
          else none) :=
  visitGo_spec parse filter attrs none

/-! ## The empty-precondition rendering of function declarations -/

/-- C2 counterexample: a function carrying one empty `#[pre()]` attribute has
an empty collected precondition list, yet `render_function` does not emit
the original function's tokens — the visited `pre` attribute is removed from
the output. -/
theorem c2_counterexample :
    collectedPreconditions parseEmptyPre "pre" none fnEmptyPre = [] ∧
    renderFunction parseEmptyPre "pre" none fnEmptyPre ≠ tokensOfFn fnEmptyPre := by
  constructor
  · decide
  · decide

/-- C2 (amended): For every function declaration whose collected precondition
list is empty, no marker parameter is appended and the emitted tokens are
exactly those of the function with its matching `pre` attributes removed; in
particular a function carrying no matching `pre` attribute at all is emitted
with exactly its original tokens. -/
theorem c2_empty_preconditions_render (parse : α → Option PreAttr) (crateName : String)
    (firstAttr : Option PreAttr) (function : ItemFn α)
    (h : collectedPreconditions parse crateName firstAttr function = []) :
    renderFunction parse crateName firstAttr function =
      tokensOfFn { function with
        attrs := (visitMatchingAttrsParsed parse
          (fun a => isAttr "pre" crateName a.path) function.attrs).kept } ∧
    (function.attrs.filter (fun a => isAttr "pre" crateName a.path) = [] →
      renderFunction parse crateName firstAttr function = tokensOfFn function) := by
  have hrender : renderFunction parse crateName firstAttr function =
      tokensOfFn { function with
        attrs := (visitMatchingAttrsParsed parse
          (fun a => isAttr "pre" crateName a.path) function.attrs).kept } := by
    rw [renderFunction]
    simp [h]
  refine ⟨hrender, fun hnone => ?_⟩
  rw [hrender]
  have hkept : (visitMatchingAttrsParsed parse
      (fun a => isAttr "pre" crateName a.path) function.attrs).kept = function.attrs := by
    rw [visitMatchingAttrsParsed,
      (visitGo_spec parse (fun a => isAttr "pre" crateName a.path)
        function.attrs none).1]
    rw [List.filter_eq_self]
    intro a ha
    have := List.filter_eq_nil_iff.mp hnone a ha
    simp at this
    simp [this]
  rw [hkept]

/-- Witness for C2: the amended statement applied to a function carrying no
attributes at all, whose collected precondition list is empty. -/
theorem c2_empty_preconditions_render_witness :
    collectedPreconditions parseEmptyPre "pre" none fnPlain = [] ∧
    (renderFunction parseEmptyPre "pre" none fnPlain =
      tokensOfFn { fnPlain with
        attrs := (visitMatchingAttrsParsed parseEmptyPre
          (fun a => isAttr "pre" "pre" a.path) fnPlain.attrs).kept } ∧
    (fnPlain.attrs.filter (fun a => isAttr "pre" "pre" a.path) = [] →
      renderFunction parseEmptyPre "pre" none fnPlain = tokensOfFn fnPlain)) :=
  ⟨by decide, c2_empty_preconditions_render parseEmptyPre "pre" none fnPlain (by decide)⟩

/-! ## Justification validation -/

/-- C3: For every precondition statement without a reason clause, the reason
check emits exactly one missing-justification error — anchored with a help
note at the position where the reason clause belongs, holding the
ready-to-paste `, reason = ...` snippet built from the hint string — and a
statement list holding any such statement is not successfully rewritten. -/
theorem c3_missing_reason_diagnostics (stmts : List PreconditionHoldsStatement) :
    (checkReasons stmts).1.filter (fun d => d.kind == DiagKind.missingReason) =
        stmts.filterMap (fun s =>
          match s with
          | PreconditionHoldsStatement.withoutReason _ span missingSpan =>
            some (missingReasonDiag span missingSpan)
          | PreconditionHoldsStatement.withReason _ _ _ _ => none) ∧
    ((checkReasons stmts).1.filter (fun d => d.kind == DiagKind.missingReason)).length =
        (stmts.filter (fun s => !(hasReason s))).length ∧
    successfulExpansion (checkReasons stmts).1 = stmts.all hasReason ∧
    (∀ span missingSpan : Span,
      (missingReasonDiag span missingSpan).severity = Severity.error ∧
      (missingReasonDiag span missingSpan).helpSpan = some missingSpan ∧
      (missingReasonDiag span missingSpan).helpText =
        some "add `, reason = \"why does this hold?\"`") := by
  have hfilter : ∀ l : List PreconditionHoldsStatement,
      (l.filterMap statementDiag).filter (fun d => d.kind == DiagKind.missingReason) =
        l.filterMap (fun s =>
          match s with
          | PreconditionHoldsStatement.withoutReason _ span missingSpan =>
            some (missingReasonDiag span missingSpan)
          | PreconditionHoldsStatement.withReason _ _ _ _ => none) := by
    intro l
    induction l with
    | nil => rfl
    | cons s rest ih =>
      cases s with
      | withoutReason p sp msp =>
        simp [statementDiag, List.filterMap_cons, List.filter_cons,
          missingReasonDiag, ih]
      | withReason p sp r rsp =>
        cases h : unfinishedReason r with
        | some u =>
          simp [statementDiag, h, List.filterMap_cons, List.filter_cons,
            placeholderReasonDiag, ih]
        | none =>
          simp [statementDiag, h, List.filterMap_cons, ih]
  have hlen : ∀ l : List PreconditionHoldsStatement,
      (l.filterMap (fun s =>
        match s with
        | PreconditionHoldsStatement.withoutReason _ span missingSpan =>
          some (missingReasonDiag span missingSpan)
        | PreconditionHoldsStatement.withReason _ _ _ _ => none)).length =
      (l.filter (fun s => !(hasReason s))).length := by
    intro l
    induction l with
    | nil => rfl
    | cons s rest ih =>
      cases s <;> simp [hasReason, List.filterMap_cons, List.filter_cons, ih]
  have hconsDiag : ∀ (d : Diag) (l : List Diag),
      successfulExpansion (d :: l) =
        (!(d.severity == Severity.error) && successfulExpansion l) := by
    intro d l
    simp [successfulExpansion, hasErrorDiag, List.any_cons, Bool.not_or]
  have hsucc : ∀ l : List PreconditionHoldsStatement,
      successfulExpansion (l.filterMap statementDiag) = l.all hasReason := by
    intro l
    induction l with
    | nil => rfl
    | cons s rest ih =>
      rw [List.all_cons]
      cases s with
      | withoutReason p sp msp =>
        simp only [List.filterMap_cons, statementDiag]
        rw [hconsDiag]
        simp [missingReasonDiag, hasReason]
      | withReason p sp r rsp =>
        cases h : unfinishedReason r with
        | some u =>
          simp only [List.filterMap_cons, statementDiag, h]
          rw [hconsDiag]
          simp [placeholderReasonDiag, hasReason, ih]
        | none =>
          simp only [List.filterMap_cons, statementDiag, h]
          simp [hasReason, ih]
  exact ⟨hfilter stmts, by rw [show (checkReasons stmts).1 = stmts.filterMap statementDiag
      from rfl, hfilter stmts]; exact hlen stmts,
    hsucc stmts, fun span missingSpan => ⟨rfl, rfl, rfl⟩⟩

/-- C4: A reason triggers the placeholder-justification warning exactly when
its ASCII lowercasing is the hint string, `todo` or `?` — so `todo`, `TODO`,
`?` and the hint string itself all trigger it and other reasons do not —
the only diagnostic a stated reason can produce is a warning, and the
preconditions handed on to the rewrite are unaffected by the check. -/
theorem c4_placeholder_reason_detection :
    (∀ reason : String,
      (unfinishedReason reason).isSome ↔
        (asciiLower reason = hintReason ∨ asciiLower reason = "todo" ∨
          asciiLower reason = "?")) ∧
    (unfinishedReason "todo").isSome = true ∧
    (unfinishedReason "TODO").isSome = true ∧
    (unfinishedReason "?").isSome = true ∧
    (unfinishedReason hintReason).isSome = true ∧
    (unfinishedReason "the buffer was checked above").isSome = false ∧
    (∀ stmts : List PreconditionHoldsStatement,
      (checkReasons stmts).2 = stmts.map toPrecondition) ∧
    (∀ (p : Precondition) (span : Span) (reason : String) (reasonSpan : Span),
      ((statementDiag
          (PreconditionHoldsStatement.withReason p span reason reasonSpan)).isSome ↔
        (unfinishedReason reason).isSome) ∧
      (∀ d ∈ (statementDiag
          (PreconditionHoldsStatement.withReason p span reason reasonSpan)).toList,
        d.severity = Severity.warning)) := by
  refine ⟨?_, by decide, by decide, by decide, by decide, by decide,
    fun stmts => rfl, ?_⟩
  · intro reason
    by_cases h : asciiLower reason = hintReason ∨ asciiLower reason = "todo" ∨
      asciiLower reason = "?"
    · simp [unfinishedReason, h]
    · simp [unfinishedReason, h]
  · intro p span reason reasonSpan
    constructor
    · cases h : unfinishedReason reason <;> simp [statementDiag, h]
    · intro d hd
      cases h : unfinishedReason reason with
      | none => simp [statementDiag, h] at hd
      | some u =>
        simp [statementDiag, h] at hd
        rw [hd]
        rfl

/-! ## Duplicate annotation blocks -/

/-- In the `assert_pre` visitor loop, the number of duplicate-attribute
errors is the number of matching attributes beyond the first (beyond none
when the flag is already set). -/
theorem assertPreLoop_dupCount (parse : α → Option AssertPreAttrList) :
    ∀ (attrs : List (Attribute α)) (found : Bool),
      ((assertPreLoop parse found attrs).2.2.filter
          (fun d => d.kind == DiagKind.duplicateAttr)).length =
        (attrs.filter (fun a => a.path == ["assert_pre"])).length -
          (if found then 0 else 1)
  | [], found => by cases found <;> simp [assertPreLoop]
  | attr :: rest, found => by
    have iht := assertPreLoop_dupCount parse rest true
    have ihf := assertPreLoop_dupCount parse rest found
    simp at iht
    cases hm : (attr.path == ["assert_pre"]) with
    | false =>
      simp only [assertPreLoop, hm, Bool.false_eq_true, if_false, List.filter_cons]
      simpa [hm] using ihf
    | true =>
      cases found with
      | true =>
        simp only [assertPreLoop, hm, if_true, List.filter_cons]
        simp [hm, dupAttrDiag]
        omega
      | false =>
        cases hp : parse attr.tokens with
        | some b =>
          simp only [assertPreLoop, hm, hp, if_true, List.filter_cons]
          simp [hm, iht]
        | none =>
          simp only [assertPreLoop, hm, hp, if_true, List.filter_cons]
          simp [hm, malformedDiag, iht]

/-- Dropping the matching attributes beyond the first changes neither the
attributes kept on the node nor the parsed contents the loop collects. -/
theorem assertPreLoop_dropLater (parse : α → Option AssertPreAttrList) :
    ∀ (attrs : List (Attribute α)) (found : Bool),
      (assertPreLoop parse found (dropLaterMatches found attrs)).1 =
          (assertPreLoop parse found attrs).1 ∧
      (assertPreLoop parse found (dropLaterMatches found attrs)).2.1 =
          (assertPreLoop parse found attrs).2.1
  | [], found => by simp [dropLaterMatches, assertPreLoop]
  | attr :: rest, found => by
    cases hm : (attr.path == ["assert_pre"]) with
    | false =>
      have ih := assertPreLoop_dropLater parse rest found
      rw [show dropLaterMatches found (attr :: rest) =
        attr :: dropLaterMatches found rest from by simp [dropLaterMatches, hm]]
      constructor
      · simp only [assertPreLoop, hm, Bool.false_eq_true, if_false]
        simp [ih.1]
      · simp only [assertPreLoop, hm, Bool.false_eq_true, if_false]
        simp [ih.2]
    | true =>
      cases found with
      | true =>
        have ih := assertPreLoop_dropLater parse rest true
        rw [show dropLaterMatches true (attr :: rest) =
          dropLaterMatches true rest from by simp [dropLaterMatches, hm]]
        constructor
        · rw [ih.1]
          simp [assertPreLoop, hm]
        · rw [ih.2]
          simp [assertPreLoop, hm]
      | false =>
        have ih := assertPreLoop_dropLater parse rest true
        rw [show dropLaterMatches false (attr :: rest) =
          attr :: dropLaterMatches true rest from by simp [dropLaterMatches, hm]]
        cases hp : parse attr.tokens with
        | some b =>
          constructor
          · simp only [assertPreLoop, hm, hp, if_true]
            simp [ih.1]
          · simp only [assertPreLoop, hm, hp, if_true]
            simp [ih.2]
        | none =>
          constructor
          · simp only [assertPreLoop, hm, hp, if_true]
            simp [ih.1]
          · simp only [assertPreLoop, hm, hp, if_true]
            simp [ih.2]

/-- The diagnostics of `process_attribute` are reason diagnostics only —
never a duplicate-attribute error. -/
theorem processAttribute_no_dup (crate : String) (attr : AssertPreAttrList)
    (call : Call α) :
    (processAttribute crate attr call).2.filter
        (fun d => d.kind == DiagKind.duplicateAttr) = [] := by
  rw [processAttribute]
  rw [List.filter_eq_nil_iff]
  intro d hd
  rw [List.mem_filterMap] at hd
  obtain ⟨p, _, hdp⟩ := hd
  cases hr : p.reason with
  | none =>
    simp [statedPreconditionDiag, hr] at hdp
    simp [← hdp, missingReasonDiag]
  | some r =>
    by_cases hu : hasUnfinishedReason p
    · simp [statedPreconditionDiag, hr, hu] at hdp
      simp [← hdp, placeholderReasonDiag]
    · simp [statedPreconditionDiag, hr, hu] at hdp

/-- The precondition statements collected by the `process_call` fold are all
the precondition blocks in order — merged, none dropped. -/
theorem collectGo_preconds :
    ∀ (l : List AssertPreAttr)
      (acc : Option DefStatement × List PreconditionHoldsStatement × List Diag),
      (l.foldl collectStep acc).2.1 = acc.2.1 ++ l.filterMap precondOfAttr
  | [], acc => by simp
  | pa :: rest, acc => by
    rw [List.foldl_cons, collectGo_preconds rest (collectStep acc pa)]
    cases pa with
    | defStatement d =>
      cases hc : acc.1 <;> simp [collectStep, hc, precondOfAttr, List.filterMap_cons]
    | precondition p =>
      simp [collectStep, precondOfAttr, List.filterMap_cons]

/-- The diagnostics of the `process_call` fold count the forwarding
statements beyond the first. -/
theorem collectGo_dupLen :
    ∀ (l : List AssertPreAttr)
      (acc : Option DefStatement × List PreconditionHoldsStatement × List Diag),
      (l.foldl collectStep acc).2.2.length = acc.2.2.length + countDupsFrom acc.1.isSome l
  | [], acc => by simp [countDupsFrom]
  | pa :: rest, acc => by
    rw [List.foldl_cons, collectGo_dupLen rest (collectStep acc pa)]
    cases pa with
    | defStatement d =>
      cases hc : acc.1 <;> (simp [collectStep, hc, countDupsFrom]; try omega)
    | precondition p =>
      cases hc : acc.1 <;> simp [collectStep, hc, countDupsFrom]

/-- The diagnostics of the `process_call` fold are duplicate-forwarding
errors only. -/
theorem collectGo_dupAll :
    ∀ (l : List AssertPreAttr)
      (acc : Option DefStatement × List PreconditionHoldsStatement × List Diag),
      acc.2.2.all (fun d => d.kind == DiagKind.duplicateDef) = true →
      (l.foldl collectStep acc).2.2.all (fun d => d.kind == DiagKind.duplicateDef) = true
  | [], acc, hacc => hacc
  | pa :: rest, acc, hacc => by
    rw [List.foldl_cons]
    refine collectGo_dupAll rest (collectStep acc pa) ?_
    cases pa with
    | defStatement d =>
      cases hc : acc.1 <;> simp [collectStep, hc, List.all_append, dupDefDiag, hacc]
    | precondition p =>
      simp [collectStep, hacc]

/-- C5 counterexample: a call carrying two separate `assert_pre` annotation
blocks, each with a distinct precondition, is processed by `process_call`
with no diagnostic at all — in particular no duplicate-annotation error on
the second block — and both blocks' preconditions are merged into the
encoded fingerprint argument of the rewritten call. -/
theorem c5_counterexample :
    (processCall "pre" parseAssertPre callTwoBlocks).2 = [] ∧
    (processCall "pre" parseAssertPre callTwoBlocks).1 =
      some (Expr.call callTwoBlocksExpected) :=
  ⟨by decide, by decide⟩

/-- C5 (amended): Only the `assert_pre` visitor of `assert_pre.rs` behaves
as claimed: a call carrying more than one `assert_pre` attribute gets a
duplicate-annotation error on the second and each subsequent occurrence, and
those occurrences' contents are dropped — the rewritten call is the same as
if only the first matching attribute were present.  `process_call` of
`call_handling.rs` instead merges the precondition statements of all its
annotation blocks in order without any diagnostic; only duplicate forwarding
statements are diagnosed there, with one duplicate-forwarding error per
forwarding statement beyond the first. -/
theorem c5_duplicate_blocks (crate : String) (parse : α → Option AssertPreAttrList)
    (call : Call α) :
    ((visitExprCall crate parse call).2.filter
        (fun d => d.kind == DiagKind.duplicateAttr)).length =
      (call.attrs.filter (fun a => a.path == ["assert_pre"])).length - 1 ∧
    (visitExprCall crate parse call).1 =
      (visitExprCall crate parse
        { call with attrs := dropLaterMatches false call.attrs }).1 ∧
    (∀ parsedAttrs : List AssertPreAttr,
      (collectAttrArgs parsedAttrs).2.1 = parsedAttrs.filterMap precondOfAttr ∧
      (collectAttrArgs parsedAttrs).2.2.length = countDupsFrom false parsedAttrs ∧
      (collectAttrArgs parsedAttrs).2.2.all
        (fun d => d.kind == DiagKind.duplicateDef) = true) := by
  refine ⟨?_, ?_, fun parsedAttrs => ⟨?_, ?_, ?_⟩⟩
  case refine_3 => simpa using collectGo_preconds parsedAttrs (none, [], [])
  case refine_4 => simpa using collectGo_dupLen parsedAttrs (none, [], [])
  case refine_5 => exact collectGo_dupAll parsedAttrs (none, [], []) rfl
  · have hcount := assertPreLoop_dupCount parse call.attrs false
    simp only [Bool.false_eq_true, if_false] at hcount
    rw [visitExprCall]
    rcases happ : (assertPreLoop parse false call.attrs).2.1 with _ | ⟨a, tail⟩
    · simpa [happ] using hcount
    · simp only [happ]
      rw [List.filter_append, processAttribute_no_dup]
      simpa using hcount
  · have hdrop := assertPreLoop_dropLater parse call.attrs false
    rw [visitExprCall, visitExprCall]
    simp only [hdrop.1, hdrop.2]
    rcases (assertPreLoop parse false call.attrs).2.1 with _ | ⟨a, tail⟩ <;> rfl

/-! ## The forwarding dead branch -/

/-- C6: For every call expression carrying a forwarding statement, the
rewriter's output is a statically-true conditional holding exactly two call
shapes — the rewritten call in the live branch and an untouched copy of the
original call in the dead branch — and for every call without a forwarding
statement the output is the single rewritten call with no conditional
wrapper. -/
theorem c6_forwarding_dead_branch (crate : String)
    (preconditions : List PreconditionHoldsStatement) (d : DefStatement)
    (call : Call α) :
    (renderCall crate preconditions (some d) call).1 =
        Expr.iteTrue
          (Expr.call (renderAssertPre crate (checkReasons preconditions).2
            (updateCall d call)))
          (Expr.call call) ∧
    countCallShapes (renderCall crate preconditions (some d) call).1 = 2 ∧
    (renderCall crate preconditions none call).1 =
        Expr.call (renderAssertPre crate (checkReasons preconditions).2 call) ∧
    countCallShapes (renderCall crate preconditions none call).1 = 1 :=
  ⟨rfl, rfl, rfl, rfl⟩

/-! ## Crate-name resolution -/

/-- C7: If the main library name cannot be resolved — neither by
`proc_macro_crate::crate_name` nor by the `CARGO_PKG_NAME` fallback — the
expansion aborts with a fatal error carrying no partial output; the cached
name is resolved at most once, and once the cache is filled every later
access returns the stored value unchanged without consulting the
environment again. -/
theorem c7_crate_name_resolution :
    resolveCrateName none none = Except.error crateErrMsg ∧
    (∀ val : String, resolveCrateName none (some val) =
        if val = "pre" then Except.ok "pre" else Except.error crateErrMsg) ∧
    (∀ (name : String) (cargoPkgName : Option String),
        resolveCrateName (some name) cargoPkgName = Except.ok name) ∧
    (∀ crateNameResult cargoPkgName : Option String,
        lazyCrateName none crateNameResult cargoPkgName =
          (resolveCrateName crateNameResult cargoPkgName).map (fun v => (v, some v))) ∧
    (∀ (v : String) (crateNameResult cargoPkgName : Option String),
        lazyCrateName (some v) crateNameResult cargoPkgName = Except.ok (v, some v)) ∧
    getCrateName none = Except.error crateErrMsg := by
  refine ⟨rfl, fun val => rfl, fun name cargoPkgName => rfl, ?_,
    fun v crateNameResult cargoPkgName => rfl, rfl⟩
  intro crateNameResult cargoPkgName
  cases h : resolveCrateName crateNameResult cargoPkgName <;>
    simp [lazyCrateName, h, Except.map]

/-! ## The mirror generator -/

mutual
/-- Rendering preserves the nesting depth of a module. -/
theorem renderInner_depth :
    ∀ (m : DefsModule) (path : List String) (visibility : Option String)
      (crateName : String),
      outDepth (renderInner path visibility crateName m) = defsDepth m
  | DefsModule.mk attrs vis ident imports functions modules, path, visibility,
      crateName => by
    simp [renderInner, outDepth, defsDepth, renderModules_depth modules]
/-- Rendering preserves the maximal nesting depth of a module list. -/
theorem renderModules_depth :
    ∀ (ms : DefsModuleList) (path : List String) (visibility : String)
      (crateName : String),
      outListDepth (renderModules path visibility crateName ms) = defsListDepth ms
  | DefsModuleList.nil, _, _, _ => rfl
  | DefsModuleList.cons m ms, path, visibility, crateName => by
    simp [renderModules, outListDepth, defsListDepth, renderInner_depth m,
      renderModules_depth ms]
end

/-- Rendering preserves the number of modules in a module list. -/
theorem renderModules_length :
    ∀ (ms : DefsModuleList) (path : List String) (visibility : String)
      (crateName : String),
      outListLength (renderModules path visibility crateName ms) = defsListLength ms
  | DefsModuleList.nil, _, _, _ => rfl
  | DefsModuleList.cons m ms, path, visibility, crateName => by
    simp [renderModules, outListLength, defsListLength, renderModules_length ms]

/-- C8: For every mirrored module (at any nesting level, i.e. for any path
and passed visibility), the generated module has the same name, the same
nesting depth and the same number of direct submodules as the source; every
single import statement of the source module is copied verbatim into the
generated module; every generated forwarder keeps its signature, attributes,
gains `#[inline(always)]`, and its body is a single call of the external
path-qualified function of the same name with the original argument names in
their original order. -/
theorem c8_mirror_fidelity :
    ∀ (m : DefsModule) (path : List String) (visibility : Option String)
      (crateName : String),
      outIdent (renderInner path visibility crateName m) = defsIdent m ∧
      outDepth (renderInner path visibility crateName m) = defsDepth m ∧
      outImports (renderInner path visibility crateName m) = defsImports m ∧
      outListLength (outModules (renderInner path visibility crateName m)) =
        defsListLength (defsModules m) ∧
      outFunctions (renderInner path visibility crateName m) =
        (defsFunctions m).map (fun f =>
          { attrs := f.attrs
            inlineAlways := true
            visibility := match visibility with
              | some v => v
              | none => normVis (defsVisibility m)
            sig := f.sig
            bodyPath := (match visibility with
              | some _ => path ++ [defsIdent m]
              | none => path) ++ [f.ident]
            bodyArgs := f.argNames }) := by
  intro m path visibility crateName
  obtain ⟨attrs, vis, ident, imports, functions, modules⟩ := m
  refine ⟨rfl, renderInner_depth _ path visibility crateName, rfl, ?_, ?_⟩
  · rw [show outModules (renderInner path visibility crateName
        (DefsModule.mk attrs vis ident imports functions modules)) =
        renderModules (match visibility with
          | some _ => path ++ [ident]
          | none => path)
          (match visibility with
            | some v => v
            | none => normVis vis) crateName modules from rfl]
    rw [renderModules_length]
    rfl
  · cases visibility <;> simp [renderInner, outFunctions, renderDefsFunction,
      defsFunctions, defsVisibility, defsIdent]

mutual
/-- A recursively rendered module renders with the passed visibility and
propagates it to all its forwarders and descendants. -/
theorem renderInner_visPropagated :
    ∀ (m : DefsModule) (path : List String) (v : String) (crateName : String),
      outVisibility (renderInner path (some v) crateName m) = v ∧
        visPropagated v (renderInner path (some v) crateName m)
  | DefsModule.mk attrs vis ident imports functions modules, path, v, crateName => by
    refine ⟨rfl, ?_, ?_⟩
    · intro f hf
      simp [renderInner] at hf
      obtain ⟨g, hg, rfl⟩ := hf
      rfl
    · exact renderModules_visPropagated modules (path ++ [ident]) v crateName
/-- A rendered module list propagates the passed visibility to every module
in it. -/
theorem renderModules_visPropagated :
    ∀ (ms : DefsModuleList) (path : List String) (v : String) (crateName : String),
      visPropagatedList v (renderModules path v crateName ms)
  | DefsModuleList.nil, _, _, _ => trivial
  | DefsModuleList.cons m ms, path, v, crateName =>
    ⟨(renderInner_visPropagated m path v crateName).1,
      (renderInner_visPropagated m path v crateName).2,
      renderModules_visPropagated ms path v crateName⟩
end

/-- C9: For every mirrored module tree, visibility is decided once at the
top level and applied to all descendants: the top-level module itself keeps
its own visibility tokens; a public top level propagates `pub` to every
nested module and forwarder, and any other top-level visibility is
normalized to `pub(crate)` for all of them. -/
theorem c9_visibility_normalized :
    ∀ (m : DefsModule) (path : List String) (crateName : String),
      outVisibility (renderDefs path crateName m) = visTokens (defsVisibility m) ∧
      normVis (defsVisibility m) =
        (if defsVisibility m = Visibility.publicVis then "pub" else "pub(crate)") ∧
      visPropagated (normVis (defsVisibility m)) (renderDefs path crateName m) := by
  intro m path crateName
  obtain ⟨attrs, vis, ident, imports, functions, modules⟩ := m
  refine ⟨rfl, ?_, ?_, ?_⟩
  · cases vis <;> rfl
  · intro f hf
    simp [renderDefs, renderInner] at hf
    obtain ⟨g, hg, rfl⟩ := hf
    rfl
  · exact renderModules_visPropagated modules path (normVis vis) crateName

end Pre
